import Mathlib

/-!
# Verification of the VAYO asynchronous matching pipeline

Shallow embedding of `src/celery_tasks.py` and `src/models.py`:
the hybrid matching algorithm, the diversity filter, the tiered decision
engine and the orchestrator's retry/fallback policy, together with proofs
of the behavioural claims made by the specification.

Python floats are modelled as exact rationals (the pipeline only compares
scores against decimal constants, it performs no float arithmetic), Python
dicts holding community records as structures whose optional keys are
`Option` fields, and exceptions as `Except String` values whose payload is
the error message the orchestrator later inspects.
-/

namespace Vayo

/-- A community record dict as it flows through `celery_tasks.py`.
Required keys (always read with `[...]` by the code, guaranteed by the
spec's CommunityRecord / CandidateMatch contracts) are plain fields; the
"match_score" key, read with `.get` in `_to_community_match` and present
only on enriched candidate matches, is an `Option` field. -/
structure CRec where
  community_id : String
  community_name : String
  category : String
  member_count : Int
  recent_activity : Int
  match_score? : Option ℚ := none
deriving DecidableEq, Repr

/-- `MatchTier` from `src/models.py` (a closed three-value enum). -/
inductive MatchTier where
  | SOULMATE
  | EXPLORER
  | FALLBACK
deriving DecidableEq, Repr

/-- `CommunityMatch` from `src/models.py`.  The pydantic constraint
`match_score: float = Field(..., ge=0.0, le=1.0)` is enforced at
construction time, so a value of this type always carries a validated
score; the range check itself lives in `_to_community_match` below. -/
structure CommunityMatch where
  community_id : String
  community_name : String
  category : String
  match_score : ℚ
  member_count : Int
  recent_activity : Int
deriving DecidableEq, Repr

/-- `MatchResult` from `src/models.py` (the wall-clock `created_at`
timestamp is not modelled). Defaults mirror the pydantic defaults. -/
structure MatchResult where
  task_id : String
  user_id : String
  tier : MatchTier
  «matches» : List CommunityMatch
  auto_joined_community : Option String := none
  ai_intro_generated : Bool := false
  requires_profile_update : Bool := false
  processing_time_ms : Int := 0
deriving DecidableEq, Repr

/-- `needle` occurs at the start of `hay`. -/
def listStartsWith : (hay needle : List Char) → Bool
  | _, [] => true
  | [], _ :: _ => false
  | b :: bs, a :: as => a = b && listStartsWith bs as

/-- `needle` occurs somewhere inside `hay` (Python's `needle in hay`). -/
def listContainsSub (needle : List Char) : (hay : List Char) → Bool
  | [] => needle.isEmpty
  | c :: rest => listStartsWith (c :: rest) needle || listContainsSub needle rest

/-- Python substring test `needle in hay` on strings. -/
def strContainsSub (hay needle : String) : Bool :=
  listContainsSub needle.toList hay.toList

/-- The fixed list of transient error markers from `process_match_task`. -/
def transient_errors : List String :=
  ["429", "timeout", "ConnectionError", "ServiceUnavailable", "Temporary"]

/-- `any(err in error_message for err in transient_errors)`. -/
def isTransientError (error_message : String) : Bool :=
  transient_errors.any (fun err => strContainsSub error_message err)

/-- Modelled from the spec: `db_manager.get_popular_communities(limit)` is
repository code not present under `src/` (only its callers are).  Per the
spec it returns the top `limit` communities by the store's own popularity
ordering; the store list parameter is taken to be already in that order.
The spec's CommunityRecord carries no similarity score, so the returned
dicts have no "match_score" key. -/
def get_popular_communities (store : List CRec) (limit : ℕ) : List CRec :=
  (store.take limit).map (fun c => { c with match_score? := none })

/-- `_to_community_match` from `src/celery_tasks.py`: builds a pydantic
`CommunityMatch` from a community dict and an optional explicit score.
The score used is `score if score is not None else community.get("match_score", 0.0)`;
pydantic raises a ValidationError when it is outside `[0, 1]`. -/
def _to_community_match (community : CRec) (score : Option ℚ) : Except String CommunityMatch :=
  let s : ℚ :=
    match score with
    | some s => s
    | none => community.match_score?.getD 0
  if 0 ≤ s ∧ s ≤ 1 then
    .ok
      { community_id := community.community_id
        community_name := community.community_name
        category := community.category
        match_score := s
        member_count := community.member_count
        recent_activity := community.recent_activity }
  else
    .error "ValidationError: match_score"

/-- The pure value `_to_community_match community score` yields when the
pydantic range check passes. -/
def communityMatchOf (score : Option ℚ) (community : CRec) : CommunityMatch :=
  { community_id := community.community_id
    community_name := community.community_name
    category := community.category
    match_score :=
      match score with
      | some s => s
      | none => community.match_score?.getD 0
    member_count := community.member_count
    recent_activity := community.recent_activity }

/-- A Python list comprehension `[_to_community_match(c, score) for c in l]`:
the first ValidationError aborts the whole comprehension. -/
def mapCM (score : Option ℚ) : List CRec → Except String (List CommunityMatch)
  | [] => .ok []
  | c :: rest =>
    match _to_community_match c score with
    | .error e => .error e
    | .ok m =>
      match mapCM score rest with
      | .error e => .error e
      | .ok ms => .ok (m :: ms)

/-- Lookup in the dict comprehension `{c["community_id"]: c for c in filtered}`:
a key maps to the last record bearing it. -/
def communityMapLookup (filtered : List CRec) (id : String) : Option CRec :=
  (filtered.filter (fun c => c.community_id = id)).getLast?

/-- Scan of `_apply_diversity_filter`'s loop over indices `3, 4, ...`:
find the first entry whose category differs from `dom`, returning it
together with the list with that entry removed (order preserved). -/
def extractFirstDiff (dom : String) : List CRec → Option (CRec × List CRec)
  | [] => none
  | m :: ms =>
    if m.category ≠ dom then some (m, ms)
    else (extractFirstDiff dom ms).map (fun p => (p.1, m :: p.2))

/-- `_apply_diversity_filter` from `src/celery_tasks.py`, written as a pure
function: lists of fewer than 4 entries pass through; when the first three
entries share one category, the first later entry of a different category
(if any) is popped and reinserted at index 2. -/
def _apply_diversity_filter («matches» : List CRec) : List CRec :=
  if «matches».length < 4 then «matches»
  else
    match «matches» with
    | a :: b :: c :: rest =>
      if a.category = b.category ∧ b.category = c.category then
        match extractFirstDiff a.category rest with
        | some (d, rest') => a :: b :: d :: c :: rest'
        | none => a :: b :: c :: rest
      else a :: b :: c :: rest
    | l => l

/-- A (community_id, match_score) hit returned by the vector-search
collaborator. -/
structure VecHit where
  community_id : String
  match_score : ℚ
deriving DecidableEq, Repr

/-- `_hybrid_matching_algorithm` from `src/celery_tasks.py`.  The two data
collaborators are parameters: `filtered` is the location store's answer for
the request's (city, timezone), `vector_search` maps the candidate id list
to the vector index's ranked hits, and `popularStore` feeds the modelled
`get_popular_communities`.  When the location filter is empty the popular
list is returned directly; otherwise each vector hit is joined back
against the candidate map (dropping unknown ids) and the diversity filter
is applied. -/
def _hybrid_matching_algorithm (popularStore : List CRec) (filtered : List CRec)
    (vector_search : List String → List VecHit) : List CRec :=
  if filtered.isEmpty then get_popular_communities popularStore 5
  else
    let community_ids := filtered.map (fun c => c.community_id)
    let vector_matches := vector_search community_ids
    let enriched_matches := vector_matches.filterMap (fun vm =>
      (communityMapLookup filtered vm.community_id).map (fun community =>
        { community_id := vm.community_id
          community_name := community.community_name
          category := community.category
          match_score? := some vm.match_score
          member_count := community.member_count
          recent_activity := community.recent_activity }))
    _apply_diversity_filter enriched_matches

/-- `_apply_decision_engine` from `src/celery_tasks.py`.  `popularStore`
feeds the modelled `get_popular_communities` used on the two fallback
branches.  Reading the missing "match_score" key of the top entry raises a
KeyError, and pydantic validation errors from `_to_community_match`
propagate. -/
def _apply_decision_engine (task_id user_id : String) (popularStore : List CRec)
    («matches» : List CRec) : Except String MatchResult :=
  match «matches».head? with
  | none =>
    match mapCM (some 0) (get_popular_communities popularStore 5) with
    | .error e => .error e
    | .ok ms =>
      .ok
        { task_id := task_id
          user_id := user_id
          tier := .FALLBACK
          «matches» := ms
          requires_profile_update := true
          processing_time_ms := 0 }
  | some top_match =>
    match top_match.match_score? with
    | none => .error "KeyError: match_score"
    | some top_score =>
      if top_score > mkRat 87 100 then
        match _to_community_match top_match none with
        | .error e => .error e
        | .ok m =>
          .ok
            { task_id := task_id
              user_id := user_id
              tier := .SOULMATE
              «matches» := [m]
              auto_joined_community := some top_match.community_id
              ai_intro_generated := false
              processing_time_ms := 0 }
      else if top_score ≥ mkRat 55 100 then
        match mapCM none («matches».take 5) with
        | .error e => .error e
        | .ok ms =>
          .ok
            { task_id := task_id
              user_id := user_id
              tier := .EXPLORER
              «matches» := ms
              processing_time_ms := 0 }
      else
        match mapCM (some 0) (get_popular_communities popularStore 5) with
        | .error e => .error e
        | .ok ms =>
          .ok
            { task_id := task_id
              user_id := user_id
              tier := .FALLBACK
              «matches» := ms
              requires_profile_update := true
              processing_time_ms := 0 }

/-- The three process-wide counters declared at the top of
`src/celery_tasks.py`. -/
structure Counters where
  success_counter : ℕ
  failure_counter : ℕ
  fallback_counter : ℕ
deriving DecidableEq, Repr

/-- `max_retries=3` from the celery task declaration. -/
def max_retries : ℕ := 3

/-- Per-request context threaded through `process_match_task`: task and
user ids, the popular-communities store behind the fallback query, and the
wall-clock milliseconds the orchestrator stamps onto the result. -/
structure TaskCtx where
  task_id : String
  user_id : String
  popularStore : List CRec
  elapsed_ms : Int
deriving Repr

/-- What one execution attempt of `process_match_task` does after its
guarded region finishes: return a result dict, re-raise via
`self.retry(countdown=delay)`, or propagate an unhandled exception. -/
inductive TaskStep where
  | completed (r : MatchResult)
  | retry (delay : ℕ)
  | crashed (msg : String)
deriving DecidableEq, Repr

/-- The fallback `MatchResult` built in the `except` block of
`process_match_task`: popular communities (limit 5) each converted with
explicit score `0.0`, tier FALLBACK, `requires_profile_update=True`.  A
failure while building it (none is possible for score `0.0`, but the code
has no guard) would propagate as a bare task failure. -/
def fallback_result (ctx : TaskCtx) : Except String MatchResult :=
  match mapCM (some 0) (get_popular_communities ctx.popularStore 5) with
  | .error e => .error e
  | .ok ms =>
    .ok
      { task_id := ctx.task_id
        user_id := ctx.user_id
        tier := .FALLBACK
        «matches» := ms
        requires_profile_update := true
        processing_time_ms := ctx.elapsed_ms }

/-- One execution attempt of `process_match_task` (`src/celery_tasks.py`),
given the outcome of its guarded region (the four phases, all inside one
`try`).  On success the orchestrator stamps the elapsed time and bumps
`success_counter`; on any caught exception it first bumps
`failure_counter`, then retries iff the message matches a transient marker
and `self.request.retries < self.max_retries` (countdown `2**retries`),
and otherwise returns the fallback result.  `fallback_counter` is never
touched by the code. -/
def process_match_task_step (ctx : TaskCtx) (retries : ℕ)
    (guarded : Except String MatchResult) (cnt : Counters) : Counters × TaskStep :=
  match guarded with
  | .ok result =>
    ({ cnt with success_counter := cnt.success_counter + 1 },
      .completed { result with processing_time_ms := ctx.elapsed_ms })
  | .error error_message =>
    let cnt' := { cnt with failure_counter := cnt.failure_counter + 1 }
    if isTransientError error_message ∧ retries < max_retries then
      (cnt', .retry (2 ^ retries))
    else
      match fallback_result ctx with
      | .ok fr => (cnt', .completed fr)
      | .error m => (cnt', .crashed m)

/-- Celery's re-execution of a retried task: attempt number `retries`
takes the guarded-region outcome `attempts retries`, and a `retry` step
re-runs the task with the retry counter incremented.  `fuel` bounds the
recursion; `max_retries` makes 4 attempts the most that can occur. -/
def run_task_from (ctx : TaskCtx) (attempts : ℕ → Except String MatchResult) :
    (fuel retries : ℕ) → Counters → Counters × TaskStep
  | 0, _, cnt => (cnt, .crashed "out of fuel")
  | fuel + 1, retries, cnt =>
    match process_match_task_step ctx retries (attempts retries) cnt with
    | (cnt', .retry _) => run_task_from ctx attempts fuel (retries + 1) cnt'
    | (cnt', step) => (cnt', step)

/-- A full run of `process_match_task`: first attempt has retry counter 0,
and `fuel = max_retries + 1` attempts can never be exhausted. -/
def run_task (ctx : TaskCtx) (attempts : ℕ → Except String MatchResult)
    (cnt : Counters) : Counters × TaskStep :=
  run_task_from ctx attempts (max_retries + 1) 0 cnt

/-- The guarded region of `process_match_task` (the body of its `try`):
sanitization and vectorization are calls to the external AI collaborator,
so only their outcomes appear (an error aborts the region with that
message); then the hybrid matching algorithm feeds the decision engine. -/
def guarded_phases (ctx : TaskCtx) (sanitizeOutcome embedOutcome : Except String Unit)
    (filtered : List CRec) (vector_search : List String → List VecHit) :
    Except String MatchResult :=
  match sanitizeOutcome with
  | .error e => .error e
  | .ok _ =>
    match embedOutcome with
    | .error e => .error e
    | .ok _ =>
      _apply_decision_engine ctx.task_id ctx.user_id ctx.popularStore
        (_hybrid_matching_algorithm ctx.popularStore filtered vector_search)

/-- Sample community dict used to instantiate theorems on concrete data. -/
def cand (id cat : String) (sc : Option ℚ) : CRec :=
  { community_id := id
    community_name := id
    category := cat
    member_count := 100
    recent_activity := 10
    match_score? := sc }

/-- A sample popular-communities store of five records (no "match_score"
key, as returned by the location/popularity store). -/
def samplePop : List CRec :=
  [cand "p1" "tech" none, cand "p2" "tech" none, cand "p3" "arts" none,
    cand "p4" "sports" none, cand "p5" "music" none]

/-- A sample task context over `samplePop`. -/
def ctxSample : TaskCtx :=
  { task_id := "task1", user_id := "user1", popularStore := samplePop, elapsed_ms := 7 }

/-- The fallback result `process_match_task` builds over `ctxSample`. -/
def popFallbackResult : MatchResult :=
  { task_id := "task1"
    user_id := "user1"
    tier := .FALLBACK
    «matches» := (get_popular_communities samplePop 5).map (communityMatchOf (some 0))
    requires_profile_update := true
    processing_time_ms := 7 }

/-- A sample successful engine output used for orchestrator runs. -/
def sampleOkResult : MatchResult :=
  { task_id := "task1"
    user_id := "user1"
    tier := .EXPLORER
    «matches» := [communityMatchOf none (cand "c1" "tech" (some (mkRat 7 10)))]
    processing_time_ms := 0 }

/-- A sample attempt history: the first two executions raise a timeout,
the third succeeds. -/
def sampleAttempts (n : ℕ) : Except String MatchResult :=
  if n < 2 then .error "Request timeout" else .ok sampleOkResult

/-- A candidate whose score sits exactly on the EXPLORER upper boundary. -/
def c087 : CRec := cand "c1" "tech" (some (mkRat 87 100))

/-- The engine's output on `[c087]`. -/
def res087 : MatchResult :=
  { task_id := "task1"
    user_id := "user1"
    tier := .EXPLORER
    «matches» := [communityMatchOf none c087]
    processing_time_ms := 0 }

/-- A candidate in SOULMATE territory. -/
def c092 : CRec := cand "c1" "tech" (some (mkRat 92 100))

/-- The engine's output on `[c092]`. -/
def res092 : MatchResult :=
  { task_id := "task1"
    user_id := "user1"
    tier := .SOULMATE
    «matches» := [communityMatchOf none c092]
    auto_joined_community := some "c1"
    ai_intro_generated := false
    processing_time_ms := 0 }

/-- Eight ranked candidates with top score mkRat 7 100 (spec scenario 3). -/
def l8 : List CRec :=
  [cand "c1" "tech" (some (mkRat 7 10)), cand "c2" "tech" (some (mkRat 69 100)),
    cand "c3" "arts" (some (mkRat 68 100)), cand "c4" "tech" (some (mkRat 6 10)),
    cand "c5" "music" (some (mkRat 59 100)), cand "c6" "tech" (some (mkRat 5 10)),
    cand "c7" "tech" (some (mkRat 4 10)), cand "c8" "tech" (some (mkRat 3 10))]

/-- The engine's output on `l8`. -/
def res070 : MatchResult :=
  { task_id := "task1"
    user_id := "user1"
    tier := .EXPLORER
    «matches» := (l8.take 5).map (communityMatchOf none)
    processing_time_ms := 0 }

/-- A location-filtered community record used for a successful end-to-end run. -/
def fRec : CRec := cand "f1" "tech" none

/-- A vector-search collaborator returning one high-similarity hit. -/
def vsHit : List String → List VecHit := fun _ => [⟨"f1", mkRat 92 100⟩]

/-- The orchestrator's completed result for the `fRec`/`vsHit` run. -/
def res092full : MatchResult :=
  { task_id := "task1"
    user_id := "user1"
    tier := .SOULMATE
    «matches» := [⟨"f1", "f1", "tech", mkRat 92 100, 100, 10⟩]
    auto_joined_community := some "f1"
    ai_intro_generated := false
    processing_time_ms := 7 }

/-! ## Helper lemmas -/

theorem to_cm_spec (c : CRec) (sc : Option ℚ) :
    _to_community_match c sc =
      if 0 ≤ (communityMatchOf sc c).match_score ∧ (communityMatchOf sc c).match_score ≤ 1
      then .ok (communityMatchOf sc c)
      else .error "ValidationError: match_score" := by
  unfold _to_community_match communityMatchOf
  rfl

theorem communityMatchOf_zero_score (c : CRec) :
    (communityMatchOf (some 0) c).match_score = 0 := rfl

theorem to_cm_zero (c : CRec) :
    _to_community_match c (some 0) = .ok (communityMatchOf (some 0) c) := by
  rw [to_cm_spec]
  norm_num [communityMatchOf_zero_score]

theorem to_cm_ok {c : CRec} {sc : Option ℚ} {m : CommunityMatch}
    (h : _to_community_match c sc = .ok m) :
    m = communityMatchOf sc c ∧ 0 ≤ m.match_score ∧ m.match_score ≤ 1 := by
  rw [to_cm_spec] at h
  split_ifs at h with h0
  · cases h
    exact ⟨rfl, h0.1, h0.2⟩

theorem mapCM_ok {sc : Option ℚ} {l : List CRec} {ms : List CommunityMatch}
    (h : mapCM sc l = .ok ms) :
    ms = l.map (communityMatchOf sc) ∧
      ∀ m ∈ ms, 0 ≤ m.match_score ∧ m.match_score ≤ 1 := by
  induction l generalizing ms with
  | nil =>
    cases h
    exact ⟨rfl, by simp⟩
  | cons c rest ih =>
    rw [mapCM] at h
    cases htc : _to_community_match c sc with
    | error e => rw [htc] at h; cases h
    | ok m =>
      rw [htc] at h
      cases hrec : mapCM sc rest with
      | error e => rw [hrec] at h; cases h
      | ok ms' =>
        rw [hrec] at h
        cases h
        obtain ⟨hm, hm0, hm1⟩ := to_cm_ok htc
        obtain ⟨hms, hbound⟩ := ih hrec
        subst hm hms
        refine ⟨rfl, ?_⟩
        intro x hx
        rcases List.mem_cons.mp hx with hx | hx
        · subst hx; exact ⟨hm0, hm1⟩
        · exact hbound x hx

theorem mapCM_zero (l : List CRec) :
    mapCM (some 0) l = .ok (l.map (communityMatchOf (some 0))) := by
  induction l with
  | nil => rfl
  | cons c rest ih => rw [mapCM, to_cm_zero, ih, List.map_cons]

theorem get_popular_length (store : List CRec) (limit : ℕ) :
    (get_popular_communities store limit).length ≤ limit := by
  simp [get_popular_communities]

theorem engine_empty (t u : String) (store : List CRec) :
    _apply_decision_engine t u store [] = .ok
      { task_id := t
        user_id := u
        tier := .FALLBACK
        «matches» := (get_popular_communities store 5).map (communityMatchOf (some 0))
        requires_profile_update := true
        processing_time_ms := 0 } := by
  simp [_apply_decision_engine, mapCM_zero]

theorem engine_keyerror {ms : List CRec} {top : CRec} (t u : String) (store : List CRec)
    (hh : ms.head? = some top) (hs : top.match_score? = none) :
    _apply_decision_engine t u store ms = .error "KeyError: match_score" := by
  simp [_apply_decision_engine, hh, hs]

theorem engine_eq {ms : List CRec} {top : CRec} {s : ℚ} (t u : String) (store : List CRec)
    (hh : ms.head? = some top) (hs : top.match_score? = some s) :
    _apply_decision_engine t u store ms =
      if s > mkRat 87 100 then
        if 0 ≤ s ∧ s ≤ 1 then
          .ok
            { task_id := t
              user_id := u
              tier := .SOULMATE
              «matches» := [communityMatchOf none top]
              auto_joined_community := some top.community_id
              ai_intro_generated := false
              processing_time_ms := 0 }
        else .error "ValidationError: match_score"
      else if s ≥ mkRat 55 100 then
        match mapCM none (ms.take 5) with
        | .error e => .error e
        | .ok msl =>
          .ok
            { task_id := t
              user_id := u
              tier := .EXPLORER
              «matches» := msl
              processing_time_ms := 0 }
      else
        .ok
          { task_id := t
            user_id := u
            tier := .FALLBACK
            «matches» := (get_popular_communities store 5).map (communityMatchOf (some 0))
            requires_profile_update := true
            processing_time_ms := 0 } := by
  have hms : (communityMatchOf none top).match_score = s := by
    simp [communityMatchOf, hs]
  simp only [_apply_decision_engine, hh, hs]
  rw [to_cm_spec, hms, mapCM_zero]
  split_ifs <;> simp

theorem popular_matches_props (store : List CRec) :
    ((get_popular_communities store 5).map (communityMatchOf (some 0))).length ≤ 5 ∧
      ∀ m ∈ (get_popular_communities store 5).map (communityMatchOf (some 0)),
        m.match_score = 0 := by
  constructor
  · simpa using get_popular_length store 5
  · intro m hm
    rcases List.mem_map.mp hm with ⟨c, _, rfl⟩
    rfl

theorem fallback_result_eq (ctx : TaskCtx) :
    fallback_result ctx = .ok
      { task_id := ctx.task_id
        user_id := ctx.user_id
        tier := .FALLBACK
        «matches» := (get_popular_communities ctx.popularStore 5).map (communityMatchOf (some 0))
        requires_profile_update := true
        processing_time_ms := ctx.elapsed_ms } := by
  simp [fallback_result, mapCM_zero]

theorem engine_ok_inv {t u : String} {store ms : List CRec} {r : MatchResult}
    (hr : _apply_decision_engine t u store ms = .ok r) :
    (r.requires_profile_update = true ↔ r.tier = .FALLBACK) ∧
      (r.tier = .FALLBACK →
        r.«matches».length ≤ 5 ∧ ∀ m ∈ r.«matches», m.match_score = 0) ∧
      (∀ m ∈ r.«matches», 0 ≤ m.match_score ∧ m.match_score ≤ 1) := by
  cases ms with
  | nil =>
    rw [engine_empty] at hr
    cases hr
    refine ⟨by simp, fun _ => popular_matches_props store, ?_⟩
    intro m hm
    have h0 := (popular_matches_props store).2 m hm
    rw [h0]
    norm_num
  | cons top rest =>
    have hh : (top :: rest).head? = some top := rfl
    cases hs : top.match_score? with
    | none =>
      rw [engine_keyerror t u store hh hs] at hr
      cases hr
    | some s =>
      have hms : (communityMatchOf none top).match_score = s := by
        simp [communityMatchOf, hs]
      rw [engine_eq t u store hh hs] at hr
      by_cases h1 : s > mkRat 87 100
      · rw [if_pos h1] at hr
        by_cases hv : 0 ≤ s ∧ s ≤ 1
        · rw [if_pos hv] at hr
          cases hr
          refine ⟨by simp, by simp, ?_⟩
          intro m hm
          rcases List.mem_singleton.mp hm with rfl
          rw [hms]
          exact ⟨hv.1, hv.2⟩
        · rw [if_neg hv] at hr
          cases hr
      · rw [if_neg h1] at hr
        by_cases h2 : s ≥ mkRat 55 100
        · rw [if_pos h2] at hr
          cases hmap : mapCM none ((top :: rest).take 5) with
          | error e => rw [hmap] at hr; cases hr
          | ok msl =>
            rw [hmap] at hr
            cases hr
            exact ⟨by simp, by simp, (mapCM_ok hmap).2⟩
        · rw [if_neg h2] at hr
          cases hr
          refine ⟨by simp, fun _ => popular_matches_props store, ?_⟩
          intro m hm
          have h0 := (popular_matches_props store).2 m hm
          rw [h0]
          norm_num

theorem extractFirstDiff_none {dom : String} {l : List CRec}
    (h : ∀ x ∈ l, x.category = dom) : extractFirstDiff dom l = none := by
  induction l with
  | nil => rfl
  | cons m ms ih =>
    rw [extractFirstDiff, if_neg (by simp [h m (List.mem_cons_self m ms)])]
    rw [ih (fun x hx => h x (List.mem_cons_of_mem m hx))]
    rfl

theorem extractFirstDiff_at {dom : String} {d : CRec} :
    ∀ {j : ℕ} {l : List CRec}, (∀ x ∈ l.take j, x.category = dom) →
      l[j]? = some d → d.category ≠ dom →
      extractFirstDiff dom l = some (d, l.take j ++ l.drop (j + 1)) := by
  intro j
  induction j with
  | zero =>
    intro l hpre hd hne
    cases l with
    | nil => simp at hd
    | cons m ms =>
      rw [List.getElem?_cons_zero, Option.some_inj] at hd
      subst hd
      rw [extractFirstDiff, if_pos hne]
      simp
  | succ j ih =>
    intro l hpre hd hne
    cases l with
    | nil => simp at hd
    | cons m ms =>
      have hm : m.category = dom := hpre m (by simp [List.take_succ_cons])
      rw [extractFirstDiff, if_neg (by simp [hm])]
      have hd' : ms[j]? = some d := by simpa using hd
      have hpre' : ∀ x ∈ ms.take j, x.category = dom := by
        intro x hx
        exact hpre x (by simp [List.take_succ_cons, hx])
      rw [ih hpre' hd' hne]
      simp [List.take_succ_cons, List.drop_succ_cons]

theorem diversity_filter_cons {a b c : CRec} {rest : List CRec} (hne : rest ≠ []) :
    _apply_diversity_filter (a :: b :: c :: rest) =
      if a.category = b.category ∧ b.category = c.category then
        match extractFirstDiff a.category rest with
        | some (d, rest') => a :: b :: d :: c :: rest'
        | none => a :: b :: c :: rest
      else a :: b :: c :: rest := by
  have hlen : ¬ (a :: b :: c :: rest).length < 4 := by
    have := List.length_pos.mpr hne
    simp only [List.length_cons]
    omega
  simp only [_apply_diversity_filter, if_neg hlen]

theorem step_ok (ctx : TaskCtx) (retries : ℕ) (cnt : Counters) (r : MatchResult) :
    process_match_task_step ctx retries (.ok r) cnt =
      ({ cnt with success_counter := cnt.success_counter + 1 },
        .completed { r with processing_time_ms := ctx.elapsed_ms }) := rfl

theorem step_error_transient (ctx : TaskCtx) {msg : String} (retries : ℕ) (cnt : Counters)
    (ht : isTransientError msg = true) (hlt : retries < max_retries) :
    process_match_task_step ctx retries (.error msg) cnt =
      ({ cnt with failure_counter := cnt.failure_counter + 1 }, .retry (2 ^ retries)) := by
  simp [process_match_task_step, ht, hlt]

theorem step_error_fallback (ctx : TaskCtx) {msg : String} (retries : ℕ) (cnt : Counters)
    (h : ¬(isTransientError msg = true ∧ retries < max_retries)) :
    process_match_task_step ctx retries (.error msg) cnt =
      ({ cnt with failure_counter := cnt.failure_counter + 1 },
        .completed
          { task_id := ctx.task_id
            user_id := ctx.user_id
            tier := .FALLBACK
            «matches» :=
              (get_popular_communities ctx.popularStore 5).map (communityMatchOf (some 0))
            requires_profile_update := true
            processing_time_ms := ctx.elapsed_ms }) := by
  simp only [process_match_task_step, if_neg h, fallback_result_eq]

theorem run_from_transient_then_ok (ctx : TaskCtx) (attempts : ℕ → Except String MatchResult) :
    ∀ (k ρ fuel sc fc bc : ℕ) (r : MatchResult), k < fuel → ρ + k ≤ max_retries →
      (∀ i, i < k → ∃ msg, attempts (ρ + i) = .error msg ∧ isTransientError msg = true) →
      attempts (ρ + k) = .ok r →
      run_task_from ctx attempts fuel ρ ⟨sc, fc, bc⟩ =
        (⟨sc + 1, fc + k, bc⟩, .completed { r with processing_time_ms := ctx.elapsed_ms }) := by
  intro k
  induction k with
  | zero =>
    intro ρ fuel sc fc bc r hfuel _ _ hok
    cases fuel with
    | zero => omega
    | succ f =>
      rw [run_task_from]
      rw [show ρ + 0 = ρ from rfl] at hok
      rw [hok, step_ok]
      simp
  | succ k ih =>
    intro ρ fuel sc fc bc r hfuel hle herr hok
    cases fuel with
    | zero => omega
    | succ f =>
      obtain ⟨msg, he, ht⟩ := herr 0 (Nat.succ_pos k)
      rw [show ρ + 0 = ρ from rfl] at he
      rw [run_task_from, he, step_error_transient ctx ρ _ ht (by omega)]
      have herr' : ∀ i, i < k →
          ∃ msg, attempts (ρ + 1 + i) = .error msg ∧ isTransientError msg = true := by
        intro i hi
        have h := herr (i + 1) (by omega)
        rwa [show ρ + (i + 1) = ρ + 1 + i by omega] at h
      have hok' : attempts (ρ + 1 + k) = .ok r := by
        rwa [show ρ + (k + 1) = ρ + 1 + k by omega] at hok
      have hrec := ih (ρ + 1) f sc (fc + 1) bc r (by omega) (by omega) herr' hok'
      have heq : fc + 1 + k = fc + (k + 1) := by omega
      rw [heq] at hrec
      exact hrec

/-! ## Claim theorems -/

/-- Claim C1: for every non-empty match sequence given to the decision
engine, the tier of the produced MatchResult is a pure function of the
first entry's score: SOULMATE exactly when score > mkRat 87 100, EXPLORER exactly
when mkRat 55 100 ≤ score ≤ mkRat 87 100, and FALLBACK exactly when score < mkRat 55 100. -/
theorem C1_tier_pure_function_of_top_score
    {ms : List CRec} {top : CRec} {s : ℚ} {r : MatchResult}
    (t u : String) (store : List CRec)
    (hh : ms.head? = some top) (hs : top.match_score? = some s)
    (hr : _apply_decision_engine t u store ms = .ok r) :
    (r.tier = .SOULMATE ↔ s > mkRat 87 100) ∧
      (r.tier = .EXPLORER ↔ mkRat 55 100 ≤ s ∧ s ≤ mkRat 87 100) ∧
      (r.tier = .FALLBACK ↔ s < mkRat 55 100) := by
  rw [engine_eq t u store hh hs] at hr
  by_cases h1 : s > mkRat 87 100
  · rw [if_pos h1] at hr
    by_cases hv : 0 ≤ s ∧ s ≤ 1
    · rw [if_pos hv] at hr
      cases hr
      refine ⟨iff_of_true rfl h1, iff_of_false (by simp) ?_, iff_of_false (by simp) ?_⟩
      · rintro ⟨-, hle⟩
        exact absurd h1 (not_lt.mpr hle)
      · intro hlt
        have : (mkRat 55 100) < mkRat 87 100 := by decide
        exact absurd h1 (not_lt.mpr (le_of_lt (lt_trans hlt this)))
    · rw [if_neg hv] at hr
      cases hr
  · rw [if_neg h1] at hr
    by_cases h2 : s ≥ mkRat 55 100
    · rw [if_pos h2] at hr
      cases hmap : mapCM none (ms.take 5) with
      | error e => rw [hmap] at hr; cases hr
      | ok msl =>
        rw [hmap] at hr
        cases hr
        refine ⟨iff_of_false (by simp) h1, iff_of_true rfl ⟨h2, not_lt.mp h1⟩,
          iff_of_false (by simp) (not_lt.mpr h2)⟩
    · rw [if_neg h2] at hr
      cases hr
      have hlt : s < mkRat 55 100 := not_le.mp h2
      refine ⟨iff_of_false (by simp) ?_, iff_of_false (by simp) ?_, iff_of_true rfl hlt⟩
      · intro hgt
        have : (mkRat 55 100) < mkRat 87 100 := by decide
        exact absurd hlt (not_lt.mpr (le_of_lt (lt_trans this hgt)))
      · rintro ⟨hge, -⟩
        exact absurd hlt (not_lt.mpr hge)

theorem C1_tier_pure_function_of_top_score_witness :
    ([c087].head? = some c087) ∧ (c087.match_score? = some (mkRat 87 100)) ∧
      (_apply_decision_engine "task1" "user1" samplePop [c087] = .ok res087) ∧
      ((res087.tier = .SOULMATE ↔ (mkRat 87 100) > mkRat 87 100) ∧
        (res087.tier = .EXPLORER ↔ (mkRat 55 100) ≤ mkRat 87 100 ∧ (mkRat 87 100) ≤ mkRat 87 100) ∧
        (res087.tier = .FALLBACK ↔ (mkRat 87 100) < mkRat 55 100)) := by
  have hE : _apply_decision_engine "task1" "user1" samplePop [c087] = .ok res087 := by rfl
  exact ⟨rfl, rfl, hE,
    @C1_tier_pure_function_of_top_score [c087] c087 (mkRat 87 100) res087
      "task1" "user1" samplePop rfl rfl hE⟩

/-- Claim C2 (evaluation at the failing input): when the location store
returns zero candidates, the hybrid algorithm does return the top-5
popular communities, but the decision engine then raises a KeyError
reading the missing "match_score" key of the first popular record, so the
task completes only through the orchestrator's exception handler (with
`failure_counter` incremented) — not through the normal path.  The final
result still has tier FALLBACK, the 5 popular communities at score 0 and
`requires_profile_update = true`. -/
theorem C2_sparse_location_is_error_path_eval :
    (_hybrid_matching_algorithm samplePop [] (fun _ => []) =
      get_popular_communities samplePop 5) ∧
      (_apply_decision_engine "task1" "user1" samplePop
          (_hybrid_matching_algorithm samplePop [] (fun _ => [])) =
        .error "KeyError: match_score") ∧
      (process_match_task_step ctxSample 0
          (guarded_phases ctxSample (.ok ()) (.ok ()) [] (fun _ => [])) ⟨0, 0, 0⟩ =
        (⟨0, 1, 0⟩, .completed popFallbackResult)) ∧
      popFallbackResult.tier = .FALLBACK ∧
      popFallbackResult.«matches».length = 5 ∧
      (∀ m ∈ popFallbackResult.«matches», m.match_score = 0) ∧
      popFallbackResult.requires_profile_update = true := by
  refine ⟨rfl, rfl, rfl, rfl, rfl, ?_, rfl⟩
  intro m hm
  exact (popular_matches_props samplePop).2 m hm

/-- Claim C3: the diversity filter leaves sequences of fewer than 4
entries unchanged; when the first three entries share one category and
some later entry differs, exactly the first such entry is removed and
reinserted at index 2 with all other entries keeping their relative
order; in every other case (heterogeneous top-3, or no differing later
entry) the sequence is unchanged. -/
theorem C3_diversity_filter_behavior :
    (∀ ms : List CRec, ms.length < 4 → _apply_diversity_filter ms = ms) ∧
      (∀ (a b c d : CRec) (rest : List CRec) (j : ℕ),
        a.category = b.category → b.category = c.category →
        (∀ x ∈ rest.take j, x.category = a.category) → rest[j]? = some d →
        d.category ≠ a.category →
        _apply_diversity_filter (a :: b :: c :: rest) =
          a :: b :: d :: c :: (rest.take j ++ rest.drop (j + 1))) ∧
      (∀ (a b c : CRec) (rest : List CRec),
        ¬(a.category = b.category ∧ b.category = c.category) →
        _apply_diversity_filter (a :: b :: c :: rest) = a :: b :: c :: rest) ∧
      (∀ (a b c : CRec) (rest : List CRec),
        (∀ x ∈ rest, x.category = a.category) →
        _apply_diversity_filter (a :: b :: c :: rest) = a :: b :: c :: rest) := by
  have hshort : ∀ ms : List CRec, ms.length < 4 → _apply_diversity_filter ms = ms := by
    intro ms h
    simp only [_apply_diversity_filter, if_pos h]
  refine ⟨hshort, ?_, ?_, ?_⟩
  · intro a b c d rest j hab hbc hpre hd hne
    have hrest : rest ≠ [] := by
      intro hnil
      subst hnil
      simp at hd
    rw [diversity_filter_cons hrest, if_pos ⟨hab, hbc⟩, extractFirstDiff_at hpre hd hne]
  · intro a b c rest hcat
    cases rest with
    | nil => exact hshort _ (by simp)
    | cons x xs =>
      rw [diversity_filter_cons (by simp), if_neg hcat]
  · intro a b c rest hall
    cases rest with
    | nil => exact hshort _ (by simp)
    | cons x xs =>
      rw [diversity_filter_cons (by simp)]
      by_cases hcat : a.category = b.category ∧ b.category = c.category
      · rw [if_pos hcat, extractFirstDiff_none hall]
      · rw [if_neg hcat]

theorem C3_diversity_filter_behavior_witness :
    ((cand "m1" "catA" (some (mkRat 9 10))).category =
        (cand "m2" "catA" (some (mkRat 8 10))).category) ∧
      ([cand "m4" "catB" (some (mkRat 6 10)), cand "m5" "catA" (some (mkRat 5 10))][0]? =
        some (cand "m4" "catB" (some (mkRat 6 10)))) ∧
      ((cand "m4" "catB" (some (mkRat 6 10))).category ≠
        (cand "m1" "catA" (some (mkRat 9 10))).category) ∧
      _apply_diversity_filter
          [cand "m1" "catA" (some (mkRat 9 10)), cand "m2" "catA" (some (mkRat 8 10)),
            cand "m3" "catA" (some (mkRat 7 10)), cand "m4" "catB" (some (mkRat 6 10)),
            cand "m5" "catA" (some (mkRat 5 10))] =
        [cand "m1" "catA" (some (mkRat 9 10)), cand "m2" "catA" (some (mkRat 8 10)),
          cand "m4" "catB" (some (mkRat 6 10)), cand "m3" "catA" (some (mkRat 7 10)),
          cand "m5" "catA" (some (mkRat 5 10))] := by
  refine ⟨rfl, rfl, by decide, ?_⟩
  have h := C3_diversity_filter_behavior.2.1
    (cand "m1" "catA" (some (mkRat 9 10))) (cand "m2" "catA" (some (mkRat 8 10)))
    (cand "m3" "catA" (some (mkRat 7 10))) (cand "m4" "catB" (some (mkRat 6 10)))
    [cand "m4" "catB" (some (mkRat 6 10)), cand "m5" "catA" (some (mkRat 5 10))] 0
    rfl rfl (by simp) rfl (by decide)
  simpa using h

/-- Claim C4: a transient error with the retry counter below the maximum
of 3 re-schedules the task (hence the failed phase) with countdown
`2 ^ retry_count` seconds, the re-execution runs with the counter
incremented, delays are 1s/2s/4s for retries 0/1/2, and no retry is ever
scheduled once the counter has reached 3. -/
theorem C4_transient_retry_policy (ctx : TaskCtx) {msg : String} (cnt : Counters)
    (ht : isTransientError msg = true) :
    (∀ retries, retries < max_retries →
      process_match_task_step ctx retries (.error msg) cnt =
        ({ cnt with failure_counter := cnt.failure_counter + 1 }, .retry (2 ^ retries))) ∧
      (∀ (attempts : ℕ → Except String MatchResult) (fuel retries : ℕ),
        retries < max_retries → attempts retries = .error msg →
        run_task_from ctx attempts (fuel + 1) retries cnt =
          run_task_from ctx attempts fuel (retries + 1)
            { cnt with failure_counter := cnt.failure_counter + 1 }) ∧
      (∀ retries, max_retries ≤ retries →
        ∀ d, (process_match_task_step ctx retries (.error msg) cnt).2 ≠ .retry d) ∧
      (2 ^ (0 : ℕ) = 1 ∧ 2 ^ (1 : ℕ) = 2 ∧ 2 ^ (2 : ℕ) = 4) := by
  refine ⟨?_, ?_, ?_, by norm_num⟩
  · intro retries hlt
    exact step_error_transient ctx retries cnt ht hlt
  · intro attempts fuel retries hlt hat
    rw [run_task_from, hat, step_error_transient ctx retries cnt ht hlt]
  · intro retries hge d
    rw [step_error_fallback ctx retries cnt (by rintro ⟨-, hlt⟩; omega)]
    simp

theorem C4_transient_retry_policy_witness :
    isTransientError "Request timeout" = true ∧ 1 < max_retries ∧
      process_match_task_step ctxSample 1 (.error "Request timeout") ⟨0, 0, 0⟩ =
        (⟨0, 1, 0⟩, .retry 2) := by
  have ht : isTransientError "Request timeout" = true := by decide
  refine ⟨ht, by decide, ?_⟩
  exact (C4_transient_retry_policy ctxSample ⟨0, 0, 0⟩ ht).1 1 (by decide)

/-- Claim C5 (evaluation at the failing input): a non-transient error is
never retried — the very first attempt completes with the fallback result
— but the process-wide `fallback_counter` is NOT incremented (the code
increments `failure_counter` and never touches `fallback_counter`),
contradicting the claimed `fallback_counter + 1`. -/
theorem C5_nontransient_immediate_fallback_eval :
    isTransientError "ValueError: invalid profile" = false ∧
      run_task ctxSample (fun _ => .error "ValueError: invalid profile") ⟨0, 0, 0⟩ =
        (⟨0, 1, 0⟩, .completed popFallbackResult) ∧
      (⟨0, 1, 0⟩ : Counters).fallback_counter = 0 := by
  exact ⟨by decide, rfl, rfl⟩

theorem guarded_ok {ctx : TaskCtx} {san emb : Except String Unit} {filtered : List CRec}
    {vs : List String → List VecHit} {r0 : MatchResult}
    (hg : guarded_phases ctx san emb filtered vs = .ok r0) :
    _apply_decision_engine ctx.task_id ctx.user_id ctx.popularStore
      (_hybrid_matching_algorithm ctx.popularStore filtered vs) = .ok r0 := by
  unfold guarded_phases at hg
  cases san with
  | error e => cases hg
  | ok _ =>
    cases emb with
    | error e => cases hg
    | ok _ => exact hg

/-- Claim C6: for every MatchResult completed by the orchestrator,
`requires_profile_update` is true exactly when the tier is FALLBACK, and
every FALLBACK result carries at most 5 matches, each scored 0. -/
theorem C6_requires_profile_update_iff_fallback
    (ctx : TaskCtx) (retries : ℕ) (cnt : Counters) (san emb : Except String Unit)
    (filtered : List CRec) (vs : List String → List VecHit)
    {cnt' : Counters} {r : MatchResult}
    (h : process_match_task_step ctx retries (guarded_phases ctx san emb filtered vs) cnt =
      (cnt', .completed r)) :
    (r.requires_profile_update = true ↔ r.tier = .FALLBACK) ∧
      (r.tier = .FALLBACK →
        r.«matches».length ≤ 5 ∧ ∀ m ∈ r.«matches», m.match_score = 0) := by
  cases hg : guarded_phases ctx san emb filtered vs with
  | ok r0 =>
    rw [hg, step_ok] at h
    obtain ⟨hinv1, hinv2, -⟩ := engine_ok_inv (guarded_ok hg)
    cases h
    exact ⟨hinv1, hinv2⟩
  | error msg =>
    rw [hg] at h
    by_cases hc : isTransientError msg = true ∧ retries < max_retries
    · rw [step_error_transient ctx retries cnt hc.1 hc.2] at h
      cases h
    · rw [step_error_fallback ctx retries cnt hc] at h
      cases h
      exact ⟨by simp, fun _ => popular_matches_props ctx.popularStore⟩

theorem C6_requires_profile_update_iff_fallback_witness :
    (process_match_task_step ctxSample 0
        (guarded_phases ctxSample (.ok ()) (.ok ()) [] (fun _ => [])) ⟨0, 0, 0⟩ =
      (⟨0, 1, 0⟩, .completed popFallbackResult)) ∧
      ((popFallbackResult.requires_profile_update = true ↔
          popFallbackResult.tier = .FALLBACK) ∧
        (popFallbackResult.tier = .FALLBACK →
          popFallbackResult.«matches».length ≤ 5 ∧
            ∀ m ∈ popFallbackResult.«matches», m.match_score = 0)) := by
  have h : process_match_task_step ctxSample 0
      (guarded_phases ctxSample (.ok ()) (.ok ()) [] (fun _ => [])) ⟨0, 0, 0⟩ =
      (⟨0, 1, 0⟩, .completed popFallbackResult) := rfl
  exact ⟨h, C6_requires_profile_update_iff_fallback ctxSample 0 ⟨0, 0, 0⟩
    (.ok ()) (.ok ()) [] (fun _ => []) h⟩

/-- Claim C7: for every non-empty match sequence whose first entry scores
above 0.87, a produced result is SOULMATE with exactly one match equal to
that top candidate, `auto_joined_community` set to its community id and
`ai_intro_generated = false`. -/
theorem C7_soulmate_single_match
    {ms : List CRec} {top : CRec} {s : ℚ} {r : MatchResult}
    (t u : String) (store : List CRec)
    (hh : ms.head? = some top) (hs : top.match_score? = some s)
    (h1 : s > mkRat 87 100)
    (hr : _apply_decision_engine t u store ms = .ok r) :
    r.tier = .SOULMATE ∧
      r.«matches» =
        [{ community_id := top.community_id
           community_name := top.community_name
           category := top.category
           match_score := s
           member_count := top.member_count
           recent_activity := top.recent_activity }] ∧
      r.auto_joined_community = some top.community_id ∧
      r.ai_intro_generated = false := by
  rw [engine_eq t u store hh hs, if_pos h1] at hr
  by_cases hv : 0 ≤ s ∧ s ≤ 1
  · rw [if_pos hv] at hr
    cases hr
    refine ⟨rfl, ?_, rfl, rfl⟩
    simp [communityMatchOf, hs]
  · rw [if_neg hv] at hr
    cases hr

theorem C7_soulmate_single_match_witness :
    ([c092].head? = some c092) ∧ (c092.match_score? = some (mkRat 92 100)) ∧
      (mkRat 92 100 > mkRat 87 100) ∧
      (_apply_decision_engine "task1" "user1" samplePop [c092] = .ok res092) ∧
      (res092.tier = .SOULMATE ∧
        res092.«matches» =
          [{ community_id := c092.community_id
             community_name := c092.community_name
             category := c092.category
             match_score := mkRat 92 100
             member_count := c092.member_count
             recent_activity := c092.recent_activity }] ∧
        res092.auto_joined_community = some c092.community_id ∧
        res092.ai_intro_generated = false) := by
  have h1 : mkRat 92 100 > mkRat 87 100 := by decide
  have hE : _apply_decision_engine "task1" "user1" samplePop [c092] = .ok res092 := by rfl
  exact ⟨rfl, rfl, h1, hE,
    @C7_soulmate_single_match [c092] c092 (mkRat 92 100) res092
      "task1" "user1" samplePop rfl rfl h1 hE⟩

/-- Claim C8: for every non-empty match sequence whose first entry scores
in [0.55, 0.87], a produced result is EXPLORER and its matches are exactly
the first 5 entries of the input (fewer if fewer exist), in order. -/
theorem C8_explorer_first_five
    {ms : List CRec} {top : CRec} {s : ℚ} {r : MatchResult}
    (t u : String) (store : List CRec)
    (hh : ms.head? = some top) (hs : top.match_score? = some s)
    (hge : mkRat 55 100 ≤ s) (hle : s ≤ mkRat 87 100)
    (hr : _apply_decision_engine t u store ms = .ok r) :
    r.tier = .EXPLORER ∧
      r.«matches» = (ms.take 5).map (communityMatchOf none) ∧
      r.«matches».length = min 5 ms.length := by
  have h1 : ¬s > mkRat 87 100 := not_lt.mpr hle
  rw [engine_eq t u store hh hs, if_neg h1, if_pos hge] at hr
  cases hmap : mapCM none (ms.take 5) with
  | error e => rw [hmap] at hr; cases hr
  | ok msl =>
    rw [hmap] at hr
    cases hr
    obtain ⟨heq, -⟩ := mapCM_ok hmap
    refine ⟨rfl, heq, ?_⟩
    rw [heq]
    simp

theorem C8_explorer_first_five_witness :
    (l8.head? = some (cand "c1" "tech" (some (mkRat 7 10)))) ∧
      ((cand "c1" "tech" (some (mkRat 7 10))).match_score? = some (mkRat 7 10)) ∧
      (mkRat 55 100 ≤ mkRat 7 10) ∧ (mkRat 7 10 ≤ mkRat 87 100) ∧
      (_apply_decision_engine "task1" "user1" samplePop l8 = .ok res070) ∧
      (res070.tier = .EXPLORER ∧
        res070.«matches» = (l8.take 5).map (communityMatchOf none) ∧
        res070.«matches».length = min 5 l8.length) := by
  have hge : mkRat 55 100 ≤ mkRat 7 10 := by decide
  have hle : mkRat 7 10 ≤ mkRat 87 100 := by decide
  have hE : _apply_decision_engine "task1" "user1" samplePop l8 = .ok res070 := by rfl
  exact ⟨rfl, rfl, hge, hle, hE,
    @C8_explorer_first_five l8 (cand "c1" "tech" (some (mkRat 7 10))) (mkRat 7 10) res070
      "task1" "user1" samplePop rfl rfl hge hle hE⟩

/-- Claim C9: every MatchResult the pipeline completes carries only
matches with match_score in the closed interval [0, 1] (the pydantic
`Field(ge=0.0, le=1.0)` bound checked in `_to_community_match`). -/
theorem C9_scores_in_unit_interval
    (ctx : TaskCtx) (retries : ℕ) (cnt : Counters) (san emb : Except String Unit)
    (filtered : List CRec) (vs : List String → List VecHit)
    {cnt' : Counters} {r : MatchResult}
    (h : process_match_task_step ctx retries (guarded_phases ctx san emb filtered vs) cnt =
      (cnt', .completed r)) :
    ∀ m ∈ r.«matches», 0 ≤ m.match_score ∧ m.match_score ≤ 1 := by
  cases hg : guarded_phases ctx san emb filtered vs with
  | ok r0 =>
    rw [hg, step_ok] at h
    obtain ⟨-, -, hinv3⟩ := engine_ok_inv (guarded_ok hg)
    cases h
    exact hinv3
  | error msg =>
    rw [hg] at h
    by_cases hc : isTransientError msg = true ∧ retries < max_retries
    · rw [step_error_transient ctx retries cnt hc.1 hc.2] at h
      cases h
    · rw [step_error_fallback ctx retries cnt hc] at h
      cases h
      intro m hm
      have h0 := (popular_matches_props ctx.popularStore).2 m hm
      rw [h0]
      norm_num

theorem C9_scores_in_unit_interval_witness :
    (process_match_task_step ctxSample 0
        (guarded_phases ctxSample (.ok ()) (.ok ()) [fRec] vsHit) ⟨0, 0, 0⟩ =
      (⟨1, 0, 0⟩, .completed res092full)) ∧
      (∀ m ∈ res092full.«matches», 0 ≤ m.match_score ∧ m.match_score ≤ 1) := by
  have h : process_match_task_step ctxSample 0
      (guarded_phases ctxSample (.ok ()) (.ok ()) [fRec] vsHit) ⟨0, 0, 0⟩ =
      (⟨1, 0, 0⟩, .completed res092full) := by rfl
  exact ⟨h, C9_scores_in_unit_interval ctxSample 0 ⟨0, 0, 0⟩
    (.ok ()) (.ok ()) [fRec] vsHit h⟩

/-- Claim C10 (implicit): every caught exception bumps `failure_counter`
before the transient/permanent classification, so a task that succeeds
after k transient retries (k ≤ 3) ends with `failure_counter` increased by
k and `success_counter` increased by 1. -/
theorem C10_failure_counter_counts_retried_attempts
    (ctx : TaskCtx) (attempts : ℕ → Except String MatchResult)
    (k sc fc bc : ℕ) (r : MatchResult) (hk : k ≤ max_retries)
    (herr : ∀ i, i < k → ∃ msg, attempts i = .error msg ∧ isTransientError msg = true)
    (hok : attempts k = .ok r) :
    run_task ctx attempts ⟨sc, fc, bc⟩ =
      (⟨sc + 1, fc + k, bc⟩, .completed { r with processing_time_ms := ctx.elapsed_ms }) := by
  rw [run_task]
  refine run_from_transient_then_ok ctx attempts k 0 (max_retries + 1) sc fc bc r
    (by omega) (by omega) ?_ (by rwa [Nat.zero_add])
  intro i hi
  obtain ⟨msg, hm, ht⟩ := herr i hi
  exact ⟨msg, by rwa [Nat.zero_add], ht⟩

theorem C10_failure_counter_counts_retried_attempts_witness :
    2 ≤ max_retries ∧ (sampleAttempts 2 = .ok sampleOkResult) ∧
      run_task ctxSample sampleAttempts ⟨0, 0, 0⟩ =
        (⟨1, 2, 0⟩, .completed { sampleOkResult with processing_time_ms := 7 }) := by
  refine ⟨by decide, rfl, ?_⟩
  have h := C10_failure_counter_counts_retried_attempts ctxSample sampleAttempts
    2 0 0 0 sampleOkResult (by decide) ?_ rfl
  · exact h
  · intro i hi
    refine ⟨"Request timeout", ?_, by decide⟩
    simp [sampleAttempts, hi]

end Vayo
